import Mathlib

/-!
Verification development for the incidents-manager repository: a shallow
embedding of the server store (src/server/server.js), the shared message
schema (src/src/shared/schema.ts), the client socket hook
(src/src/features/incidents/hooks/useIncidentSocket.ts and the appended
hook variant at the end of src/src/shared/schema.ts), and the bucketing
logic (src/src/features/incidents/logic/incidentFilters.ts).

Machine numbers (JS `number`) are modelled as rationals; `toFixed(d)`
is modelled as exact rounding to `d` decimal places with ties upward
(the ECMAScript `toFixed` spec picks the larger candidate on ties).
Wall-clock timestamps are opaque strings supplied as parameters.
-/

namespace IncidentsManager

/-! ## Data model (src/src/shared/types.ts, schema.ts) -/

/-- One time-series sample: `IncidentReading` in types.ts / schema.ts. -/
structure Reading where
  timestamp : String
  temperature : ℚ
  pressure : ℚ
deriving DecidableEq, Repr

/-- An incident record, per `IncidentSchema` in schema.ts.
`assignedTo` is `string | null | undefined` in TS; `null` and `undefined`
behave identically everywhere in this codebase (only truthiness is ever
checked), so both are modelled as `none`. -/
structure Incident where
  incidentId : String
  siteId : String
  assetId : String
  alarmId : String
  priority : ℚ
  createdAt : String
  updatedAt : Option String
  assignedTo : Option String
  stateId : String
  escalationLevelId : String
  incidentTypeIds : Option (List String)
  readings : Option (List Reading)
deriving DecidableEq, Repr

/-- The `escalationLevels` / `incidentTypes` / `sites` catalog entries. -/
structure NamedRef where
  id : String
  name : String
deriving DecidableEq, Repr

/-- The `assets` catalog entry. -/
structure Asset where
  id : String
  siteId : String
  displayName : String
  model : String
  regionName : String
deriving DecidableEq, Repr

/-- The `alarms` catalog entry. -/
structure Alarm where
  alarmId : String
  code : String
  description : String
  legacyId : Option String
deriving DecidableEq, Repr

/-- The five static reference lists (`CatalogSchema`). -/
structure Catalog where
  escalationLevels : List NamedRef
  incidentTypes : List NamedRef
  sites : List NamedRef
  assets : List Asset
  alarms : List Alarm
deriving DecidableEq, Repr

/-- The `PROTOCOL_VERSION` in schema.ts. -/
def PROTOCOL_VERSION : String := "1"

/-! ## Reading generator (server.js `createReading`) -/

/-- The `Math.random()` draws consumed by one `createReading` call:
`bt`/`bp` seed the temperature/pressure base when there is no previous
reading, `dt`/`dp` drive the drift. Each is uniform in `[0, 1)`. -/
structure Draws where
  bt : ℚ
  bp : ℚ
  dt : ℚ
  dp : ℚ
deriving DecidableEq, Repr

/-- All four draws of a `Draws` record lie in `[0, 1)`. -/
def DrawsInRange (d : Draws) : Prop :=
  0 ≤ d.bt ∧ d.bt < 1 ∧ 0 ≤ d.bp ∧ d.bp < 1 ∧
  0 ≤ d.dt ∧ d.dt < 1 ∧ 0 ≤ d.dp ∧ d.dp < 1

instance (d : Draws) : Decidable (DrawsInRange d) := by
  unfold DrawsInRange; infer_instance

/-- The `Number(x.toFixed(n))`: round to `n` decimal places, ties upward. -/
def roundToDec (n : ℕ) (x : ℚ) : ℚ :=
  (round (x * 10 ^ n) : ℤ) / 10 ^ n

/-- server.js `createReading`: seed the bases from the draws when there is
no previous reading, then drift by `uniform(-2,2)` / `uniform(-1,1)` and
round to 1 / 2 decimals. `now` abstracts `new Date().toISOString()`. -/
def createReading (previous : Option Reading) (d : Draws) (now : String) : Reading :=
  let temperatureBase := match previous with
    | some p => p.temperature
    | none => 68 + d.bt * 12
  let pressureBase := match previous with
    | some p => p.pressure
    | none => 18 + d.bp * 6
  { timestamp := now
    temperature := roundToDec 1 (temperatureBase + (d.dt * 4 - 2))
    pressure := roundToDec 2 (pressureBase + (d.dp * 2 - 1)) }

/-- A reading produced by `createReading` from in-range draws. -/
def GeneratedReading (r : Reading) : Prop :=
  ∃ (previous : Option Reading) (d : Draws) (now : String),
    DrawsInRange d ∧ r = createReading previous d now

/-! ## Server state store (server.js) -/

/-- The `MAX_READINGS` in server.js. -/
def MAX_READINGS : ℕ := 24

/-- The `INCIDENT_ID_PATTERN = /^[a-z0-9-]{3,32}$/i`: 3 to 32 characters,
each a letter, digit, or hyphen (case-insensitive). -/
def validIncidentId (s : String) : Bool :=
  3 ≤ s.length && s.length ≤ 32 &&
    s.data.all fun c =>
      (('a' ≤ c && c ≤ 'z') || ('A' ≤ c && c ≤ 'Z') ||
       ('0' ≤ c && c ≤ '9') || c == '-')

/-- Server → client messages (`ServerMessageSchema`). -/
inductive ServerMsg where
  | init (protocolVersion : Option String) (incidents : Option (List Incident))
      (catalog : Option Catalog)
  | incidentAdded (incident : Incident)
  | incidentUpdated (incident : Incident)
  | readingIntervalUpdated (intervalMs : ℚ)
  | errorMsg (code : Option String) (message : Option String)
deriving DecidableEq, Repr

/-- What the server does in response to one inbound message: reply an
`error` frame to the sender only, or broadcast a message to all clients. -/
inductive ServerReply where
  | errorReply (code : String) (message : String)
  | broadcast (m : ServerMsg)
deriving DecidableEq, Repr

/-- The `arr.slice(-n)`: the last `min n arr.length` elements. -/
def takeRight (n : ℕ) (l : List Reading) : List Reading :=
  l.drop (l.length - n)

/-- The `addIncident` handler (server.js lines 178-191): reject ids that
fail the pattern with `INVALID_INCIDENT_ID` and leave the store untouched;
otherwise seed exactly one reading when `readings` is missing or empty
(the seed has no previous: `readings?.[length-1]` is `undefined` in both
cases), prepend to the store, and broadcast `incidentAdded`. -/
def addIncident (store : List Incident) (inc : Incident) (d : Draws)
    (now : String) : List Incident × ServerReply :=
  if validIncidentId inc.incidentId then
    let inc2 :=
      if (inc.readings.getD []).isEmpty then
        { inc with readings := some [createReading none d now] }
      else inc
    (inc2 :: store, .broadcast (.incidentAdded inc2))
  else
    (store, .errorReply "INVALID_INCIDENT_ID"
      "Incident ID must be 3-32 characters: letters, numbers, or hyphens.")

/-- The `updateIncident` handler (server.js lines 193-202): replace the
first incident with a matching `incidentId` in place, else prepend;
always broadcast `incidentUpdated`. -/
def updateIncidentOnServer (store : List Incident) (inc : Incident) :
    List Incident × ServerReply :=
  match store.findIdx? (fun item => item.incidentId == inc.incidentId) with
  | some i => (store.set i inc, .broadcast (.incidentUpdated inc))
  | none => (inc :: store, .broadcast (.incidentUpdated inc))

/-- One incident's share of a tick (server.js `startReadingInterval`):
generate a reading from the last one, append, keep the last 24. -/
def tickIncident (d : Draws) (now : String) (inc : Incident) : Incident :=
  let readings := inc.readings.getD []
  let nextReading := createReading readings.getLast? d now
  { inc with readings := some (takeRight MAX_READINGS (readings ++ [nextReading])) }

/-- One tick over the whole store, in list order; `f i` supplies the
draws for the `i`-th incident. -/
def tickStoreAux (f : ℕ → Draws) (now : String) : ℕ → List Incident → List Incident
  | _, [] => []
  | i, inc :: rest => tickIncident (f i) now inc :: tickStoreAux f now (i + 1) rest

/-- A full tick of `startReadingInterval`. -/
def tickStore (f : ℕ → Draws) (now : String) (store : List Incident) : List Incident :=
  tickStoreAux f now 0 store

/-- A schema-validated mutating operation on the server store. `add` and
`update` carry a structurally valid incident (the typed payload is exactly
what survives `ClientMessageSchema.safeParse`); `tick` is a firing of the
reading interval. -/
inductive Op where
  | add (inc : Incident) (d : Draws) (now : String)
  | update (inc : Incident)
  | tick (f : ℕ → Draws) (now : String)

/-- Apply one operation to the store (dropping the reply/broadcast). -/
def applyOp (store : List Incident) : Op → List Incident
  | .add inc d now => (addIncident store inc d now).1
  | .update inc => (updateIncidentOnServer store inc).1
  | .tick f now => tickStore f now store

/-- Apply a sequence of operations, oldest first. -/
def applyOps (store : List Incident) (ops : List Op) : List Incident :=
  ops.foldl applyOp store

/-- The incident ids of a store, in list order. -/
def storeIds (store : List Incident) : List String :=
  store.map fun inc => inc.incidentId

/-! ## Seeded store (server.js `incidents` + `seedReadings`) -/

/-- The `seedReadings` inner loop: build `n` chained readings, each generated
from the previous one; `g k` / `ts k` give the draws / timestamp of the
`k`-th reading. -/
def seedChain (g : ℕ → Draws) (ts : ℕ → String) : ℕ → List Reading
  | 0 => []
  | n + 1 =>
    let prev := seedChain g ts n
    prev ++ [createReading prev.getLast? (g n) (ts n)]

/-- The four seed incidents of server.js (lines 51-100) after
`seedReadings()` has run. `created k` abstracts the `createdAt`
timestamps (and `created 4` the one `updatedAt`); `g i k` gives the
draws for incident `i`'s `k`-th seeded reading, `ts k` its timestamp. -/
def seededStore (g : ℕ → ℕ → Draws) (ts : ℕ → String) (created : ℕ → String) :
    List Incident :=
  [{ incidentId := "inc-1001", siteId := "site-1", assetId := "asset-1",
     alarmId := "alarm-100", priority := 1, createdAt := created 0,
     updatedAt := none, assignedTo := none, stateId := "OPEN",
     escalationLevelId := "esc-1", incidentTypeIds := some ["type-electrical"],
     readings := some (seedChain (g 0) ts MAX_READINGS) },
   { incidentId := "inc-1002", siteId := "site-2", assetId := "asset-3",
     alarmId := "alarm-310", priority := 2, createdAt := created 1,
     updatedAt := none, assignedTo := some "user-2", stateId := "OPEN",
     escalationLevelId := "esc-1", incidentTypeIds := some ["type-cooling"],
     readings := some (seedChain (g 1) ts MAX_READINGS) },
   { incidentId := "inc-1003", siteId := "site-2", assetId := "asset-4",
     alarmId := "alarm-420", priority := 3, createdAt := created 2,
     updatedAt := none, assignedTo := some "user-1", stateId := "OPEN",
     escalationLevelId := "esc-2", incidentTypeIds := some ["type-controls"],
     readings := some (seedChain (g 2) ts MAX_READINGS) },
   { incidentId := "inc-1004", siteId := "site-1", assetId := "asset-2",
     alarmId := "alarm-220", priority := 1, createdAt := created 3,
     updatedAt := some (created 4), assignedTo := some "user-1", stateId := "CLOSED",
     escalationLevelId := "esc-2", incidentTypeIds := some ["type-facilities"],
     readings := some (seedChain (g 3) ts MAX_READINGS) }]

/-! ## Client reducer and socket hook
(useIncidentSocket.ts; message handling follows the appended hook variant
at the end of schema.ts, which the base hook file agrees with on every
branch except `readingIntervalUpdated`) -/

/-- The `IncidentAction` in useIncidentSocket.ts. -/
inductive IncidentAction where
  | init (incidents : List Incident)
  | add (incident : Incident)
  | update (incident : Incident)
deriving Repr

/-- The `incidentsReducer`: `init` replaces the list wholesale, `add`
prepends unconditionally, `update` replaces every positional occurrence
of the id in place when one exists and prepends otherwise. -/
def incidentsReducer (state : List Incident) : IncidentAction → List Incident
  | .init incidents => incidents
  | .add incident => incident :: state
  | .update incident =>
    if state.any (fun item => item.incidentId == incident.incidentId) then
      state.map fun item =>
        if item.incidentId == incident.incidentId then incident else item
    else
      incident :: state

/-- The `emptyCatalog` in useIncidentSocket.ts. -/
def emptyCatalog : Catalog :=
  { escalationLevels := [], incidentTypes := [], sites := [], assets := [],
    alarms := [] }

/-- The client-visible state owned by the hook. `pendingInterval` models
`pendingIntervalRef`, `suppressIntervalRequest` models
`suppressIntervalRequestRef`; the ack-wait timer is abstracted away
(clearing it has no further observable effect here). -/
structure ClientState where
  incidents : List Incident
  catalog : Catalog
  connectionStatus : Bool
  readingIntervalMs : ℚ
  lastError : Option String
  pendingInterval : Option ℚ
  suppressIntervalRequest : Bool
deriving Repr

/-- The `WebSocket.readyState` values. -/
inductive ReadyState where
  | connecting
  | openState
  | closing
  | closed
deriving DecidableEq, Repr

/-- Client → server messages (`ClientMessageSchema`). -/
inductive ClientMsg where
  | addIncident (incident : Incident)
  | updateIncident (incident : Incident)
  | setReadingInterval (intervalMs : ℚ)
deriving DecidableEq, Repr

/-- Apply one schema-valid server message to the client state, returning
the new state and the messages passed to the `onError` observability
hook.  This follows `handleMessage` of the appended hook variant
(schema.ts lines 208-285). -/
def applyServerMessage (st : ClientState) : ServerMsg → ClientState × List String
  | .init pv incs cat =>
    let st1 :=
      match pv with
      | some v =>
        if v ≠ "" ∧ v ≠ PROTOCOL_VERSION then
          { st with lastError := some ("Protocol mismatch: expected " ++
              PROTOCOL_VERSION ++ ", got " ++ v ++ ".") }
        else st
      | none => st
    let notes1 : List String :=
      match pv with
      | some v =>
        if v ≠ "" ∧ v ≠ PROTOCOL_VERSION then
          ["Protocol mismatch: expected " ++ PROTOCOL_VERSION ++ ", got " ++ v ++ "."]
        else []
      | none => []
    let st2 :=
      match incs with
      | some l => { st1 with incidents := incidentsReducer st1.incidents (.init l) }
      | none => st1
    let st3 :=
      match cat with
      | some c => { st2 with catalog := c }
      | none => st2
    (st3, notes1)
  | .incidentAdded incident =>
    ({ st with incidents := incidentsReducer st.incidents (.add incident) }, [])
  | .incidentUpdated incident =>
    ({ st with incidents := incidentsReducer st.incidents (.update incident) }, [])
  | .readingIntervalUpdated intervalMs =>
    let pending := st.pendingInterval
    let st1 := { st with pendingInterval := none }
    match pending with
    | none =>
      let st2 :=
        if intervalMs ≠ st1.readingIntervalMs then
          { st1 with suppressIntervalRequest := true, readingIntervalMs := intervalMs }
        else st1
      ({ st2 with lastError := none }, [])
    | some p =>
      if intervalMs ≠ p then
        let msg := "Server interval is " ++ toString intervalMs ++
          "ms, expected " ++ toString p ++ "ms."
        let st2 := { st1 with suppressIntervalRequest := true,
                              readingIntervalMs := intervalMs,
                              lastError := some msg }
        (st2, [msg])
      else
        ({ st1 with lastError := none }, [])
  | .errorMsg _ message =>
    let msg := message.getD "Unexpected server error."
    ({ st with lastError := some msg }, [msg])

/-- The `readingIntervalUpdated` branch of the standalone hook file
(useIncidentSocket.ts lines 134-144), kept for comparison: it compares the
payload against the current local interval rather than the pending request
and always ends by clearing `lastError`, so it never surfaces a
discrepancy warning. -/
def applyIntervalUpdatedBase (st : ClientState) (intervalMs : ℚ) : ClientState :=
  let st1 := { st with pendingInterval := none }
  let st2 :=
    if intervalMs ≠ st1.readingIntervalMs then
      { st1 with suppressIntervalRequest := true, readingIntervalMs := intervalMs }
    else st1
  { st2 with lastError := none }

/-- The `sendIncident` in useIncidentSocket.ts: forward `addIncident` to the
server only when the socket exists and is OPEN; otherwise do nothing. -/
def sendIncident (st : ClientState) (socket : Option ReadyState)
    (incident : Incident) : ClientState × List ClientMsg :=
  match socket with
  | some rs =>
    if rs = .openState then (st, [.addIncident incident]) else (st, [])
  | none => (st, [])

/-- The `updateIncident` in useIncidentSocket.ts: dispatch the update to the
local reducer first, then forward to the server only when the socket
exists and is OPEN. -/
def clientUpdateIncident (st : ClientState) (socket : Option ReadyState)
    (incident : Incident) : ClientState × List ClientMsg :=
  let st2 := { st with incidents := incidentsReducer st.incidents (.update incident) }
  match socket with
  | some rs =>
    if rs = .openState then (st2, [.updateIncident incident]) else (st2, [])
  | none => (st2, [])

/-! ## Wire format and schema validation (JSON + zod, schema.ts) -/

/-- A parsed JSON value (the result of a successful `JSON.parse`). -/
inductive Json where
  | null
  | bool (b : Bool)
  | num (q : ℚ)
  | str (s : String)
  | arr (elems : List Json)
  | obj (fields : List (String × Json))
deriving Repr

/-- Object field lookup (JSON objects have unique keys). -/
def Json.fieldOf (j : Json) (k : String) : Option Json :=
  match j with
  | .obj fields => (fields.find? fun p => p.1 == k).map fun p => p.2
  | _ => none

/-- The `z.string()`. -/
def Json.asString : Json → Option String
  | .str s => some s
  | _ => none

/-- The `z.number()`. -/
def Json.asNumber : Json → Option ℚ
  | .num q => some q
  | _ => none

/-- The `z.array(d)`. -/
def Json.asArrayOf (d : Json → Option α) : Json → Option (List α)
  | .arr elems => elems.mapM d
  | _ => none

/-- A required object field validated by `d`. -/
def Json.reqField (j : Json) (k : String) (d : Json → Option α) : Option α :=
  j.fieldOf k >>= d

/-- A `.optional()` field: absence passes, presence must validate. -/
def Json.optField (j : Json) (k : String) (d : Json → Option α) :
    Option (Option α) :=
  match j.fieldOf k with
  | none => some none
  | some v => (d v).map some

/-- A `.nullable().optional()` field: absence and `null` both pass. -/
def Json.optNullField (j : Json) (k : String) (d : Json → Option α) :
    Option (Option α) :=
  match j.fieldOf k with
  | none => some none
  | some .null => some none
  | some v => (d v).map some

/-- The `IncidentReadingSchema.safeParse`. -/
def decodeReading (j : Json) : Option Reading := do
  let timestamp ← j.reqField "timestamp" Json.asString
  let temperature ← j.reqField "temperature" Json.asNumber
  let pressure ← j.reqField "pressure" Json.asNumber
  pure { timestamp, temperature, pressure }

/-- The `IncidentSchema.safeParse`. -/
def decodeIncident (j : Json) : Option Incident := do
  let incidentId ← j.reqField "incidentId" Json.asString
  let siteId ← j.reqField "siteId" Json.asString
  let assetId ← j.reqField "assetId" Json.asString
  let alarmId ← j.reqField "alarmId" Json.asString
  let priority ← j.reqField "priority" Json.asNumber
  let createdAt ← j.reqField "createdAt" Json.asString
  let updatedAt ← j.optField "updatedAt" Json.asString
  let assignedTo ← j.optNullField "assignedTo" Json.asString
  let stateId ← j.reqField "stateId" Json.asString
  let escalationLevelId ← j.reqField "escalationLevelId" Json.asString
  let incidentTypeIds ← j.optField "incidentTypeIds" (Json.asArrayOf Json.asString)
  let readings ← j.optField "readings" (Json.asArrayOf decodeReading)
  pure { incidentId, siteId, assetId, alarmId, priority, createdAt, updatedAt,
         assignedTo, stateId, escalationLevelId, incidentTypeIds, readings }

/-- One `{id, name}` catalog entry. -/
def decodeNamedRef (j : Json) : Option NamedRef := do
  let id ← j.reqField "id" Json.asString
  let name ← j.reqField "name" Json.asString
  pure { id, name }

/-- One asset catalog entry. -/
def decodeAsset (j : Json) : Option Asset := do
  let id ← j.reqField "id" Json.asString
  let siteId ← j.reqField "siteId" Json.asString
  let displayName ← j.reqField "displayName" Json.asString
  let model ← j.reqField "model" Json.asString
  let regionName ← j.reqField "regionName" Json.asString
  pure { id, siteId, displayName, model, regionName }

/-- One alarm catalog entry. -/
def decodeAlarm (j : Json) : Option Alarm := do
  let alarmId ← j.reqField "alarmId" Json.asString
  let code ← j.reqField "code" Json.asString
  let description ← j.reqField "description" Json.asString
  let legacyId ← j.optField "legacyId" Json.asString
  pure { alarmId, code, description, legacyId }

/-- The `CatalogSchema.safeParse`. -/
def decodeCatalog (j : Json) : Option Catalog := do
  let escalationLevels ← j.reqField "escalationLevels" (Json.asArrayOf decodeNamedRef)
  let incidentTypes ← j.reqField "incidentTypes" (Json.asArrayOf decodeNamedRef)
  let sites ← j.reqField "sites" (Json.asArrayOf decodeNamedRef)
  let assets ← j.reqField "assets" (Json.asArrayOf decodeAsset)
  let alarms ← j.reqField "alarms" (Json.asArrayOf decodeAlarm)
  pure { escalationLevels, incidentTypes, sites, assets, alarms }

/-- The `ServerMessageSchema.safeParse`: a discriminated union on `type`; a
missing, non-string, or unrecognized discriminant fails validation. -/
def decodeServerMessage (j : Json) : Option ServerMsg := do
  let t ← j.reqField "type" Json.asString
  if t = "init" then
    let pv ← j.optField "protocolVersion" Json.asString
    let incs ← j.optField "incidents" (Json.asArrayOf decodeIncident)
    let cat ← j.optField "catalog" decodeCatalog
    pure (.init pv incs cat)
  else if t = "incidentAdded" then
    let incident ← j.reqField "incident" decodeIncident
    pure (.incidentAdded incident)
  else if t = "incidentUpdated" then
    let incident ← j.reqField "incident" decodeIncident
    pure (.incidentUpdated incident)
  else if t = "readingIntervalUpdated" then
    let intervalMs ← j.reqField "intervalMs" Json.asNumber
    pure (.readingIntervalUpdated intervalMs)
  else if t = "error" then
    let code ← j.optField "code" Json.asString
    let message ← j.optField "message" Json.asString
    pure (.errorMsg code message)
  else
    none

/-- The socket `message` handler, parse/validate stage included.
`raw = none` models a payload on which `JSON.parse` threw (silently
dropped); a JSON payload that fails `ServerMessageSchema` sets
`lastError` and notifies `onError`; a valid message is applied. -/
def handleMessage (st : ClientState) (raw : Option Json) :
    ClientState × List String :=
  match raw with
  | none => (st, [])
  | some j =>
    match decodeServerMessage j with
    | none =>
      ({ st with lastError := some "Received an unexpected message shape from the server." },
       ["Received an unexpected message shape from the server."])
    | some m => applyServerMessage st m

/-! ## Bucketing logic (incidentFilters.ts `getIncidentsByType`) -/

/-- The `IncidentBucket` in incidentFilters.ts. -/
inductive IncidentBucket where
  | newBucket
  | active
  | completed
deriving DecidableEq, Repr

/-- The inner `matchesFilter` closure: an empty-string escalation filter
and an absent or empty incident-type filter are inactive (JS truthiness
of `escalationLevelId` and of `incidentTypeIds?.length`). -/
def matchesFilter (escalationLevelId : Option String)
    (incidentTypeIds : Option (List String)) (incident : Incident) : Bool :=
  (match escalationLevelId with
   | some e => if e = "" then true else incident.escalationLevelId == e
   | none => true) &&
  (match incidentTypeIds with
   | some ts =>
     if ts.isEmpty then true
     else ts.any fun typeId => (incident.incidentTypeIds.getD []).contains typeId
   | none => true)

/-- JS truthiness of `incident.assignedTo`: false for `undefined`,
`null`, and the empty string. -/
def assignedTruthy (incident : Incident) : Bool :=
  match incident.assignedTo with
  | some s => !(s == "")
  | none => false

/-- The `getIncidentsByType`: apply the filter controls, then the bucket rule
(`new` = OPEN and falsy `assignedTo`, `active` = OPEN and truthy
`assignedTo`, `completed` = CLOSED). -/
def getIncidentsByType (incidents : List Incident) (type : IncidentBucket)
    (escalationLevelId : Option String) (incidentTypeIds : Option (List String)) :
    List Incident :=
  incidents.filter fun incident =>
    matchesFilter escalationLevelId incidentTypeIds incident &&
    (match type with
     | .newBucket => incident.stateId == "OPEN" && !(assignedTruthy incident)
     | .active => incident.stateId == "OPEN" && assignedTruthy incident
     | .completed => incident.stateId == "CLOSED")

/-! ## Invariant predicates -/

/-- An `addIncident` payload is safe for id-uniqueness when its id is
invalid (the server rejects it) or not yet present in the store. -/
def addKeepsDistinct (store : List Incident) (inc : Incident) : Bool :=
  !(validIncidentId inc.incidentId) ||
    store.all fun item => !(item.incidentId == inc.incidentId)

/-- Safety of a whole operation sequence for id-uniqueness: every add is
applied only when `addKeepsDistinct` holds at that moment. -/
def distinctSafeOps : List Incident → List Op → Bool
  | _, [] => true
  | store, op :: rest =>
    (match op with
     | .add inc _ _ => addKeepsDistinct store inc
     | .update _ => true
     | .tick _ _ => true) && distinctSafeOps (applyOp store op) rest

/-- Every incident in the store holds at most `MAX_READINGS` readings. -/
def boundedStore (store : List Incident) : Bool :=
  store.all fun inc => decide ((inc.readings.getD []).length ≤ MAX_READINGS)

/-- An operation whose payload carries at most `MAX_READINGS` readings
(ticks carry no payload). -/
def opPayloadBounded : Op → Bool
  | .add inc _ _ => decide ((inc.readings.getD []).length ≤ MAX_READINGS)
  | .update inc => decide ((inc.readings.getD []).length ≤ MAX_READINGS)
  | .tick _ _ => true

/-- Every operation in the sequence has a bounded payload. -/
def boundedOps (ops : List Op) : Bool :=
  ops.all opPayloadBounded

/-! ## Concrete sample values for witnesses and counterexamples -/

/-- A fixed draw record (every `Math.random()` returning 0). -/
def zeroDraws : Draws := { bt := 0, bp := 0, dt := 0, dp := 0 }

/-- The seeded store with all draws 0 and constant clock strings. -/
def seededStore0 : List Incident :=
  seededStore (fun _ _ => zeroDraws) (fun _ => "2026-01-01T00:00:00.000Z")
    (fun _ => "2026-01-01T00:00:00.000Z")

/-- A concrete reading. -/
def sampleReading : Reading :=
  { timestamp := "2026-01-01T00:00:00.000Z", temperature := 70, pressure := 20 }

/-- A schema-valid incident with a pattern-valid id, not in the seed. -/
def sampleIncident : Incident :=
  { incidentId := "test-incident", siteId := "site-1", assetId := "asset-1",
    alarmId := "alarm-100", priority := 1,
    createdAt := "2026-01-01T00:00:00.000Z", updatedAt := none,
    assignedTo := none, stateId := "OPEN", escalationLevelId := "esc-1",
    incidentTypeIds := some ["type-electrical"],
    readings := some [sampleReading] }

/-- A schema-valid incident carrying 25 readings (nothing in
`IncidentSchema` bounds the length of `readings`). -/
def oversizedIncident : Incident :=
  { sampleIncident with incidentId := "oversized-inc",
                        readings := some (List.replicate 25 sampleReading) }

/-- An incident whose id has length 1, below the pattern minimum of 3. -/
def invalidIdIncident : Incident :=
  { sampleIncident with incidentId := "a" }

/-- An OPEN incident whose `assignedTo` is present but the empty string. -/
def blankAssigneeIncident : Incident :=
  { sampleIncident with incidentId := "blank-assignee", assignedTo := some "" }

/-- A fresh client state as produced on mount. -/
def clientState0 : ClientState :=
  { incidents := [], catalog := emptyCatalog, connectionStatus := false,
    readingIntervalMs := 2000, lastError := none, pendingInterval := none,
    suppressIntervalRequest := false }

/-- A client state with a pending `setReadingInterval(1000)` request. -/
def pendingClientState : ClientState :=
  { clientState0 with pendingInterval := some 1000 }

/-- A JSON object that is schema-valid JSON but carries an unrecognized
discriminant, hence fails `ServerMessageSchema`. -/
def bogusJson : Json :=
  Json.obj [( "type", Json.str "bogus" )]

/-- A schema-valid reading that is not generator output: its temperature
is not a multiple of 0.1 and its pressure not a multiple of 0.01
(`IncidentReadingSchema` accepts any numbers). -/
def injectedReading : Reading :=
  { timestamp := "2026-01-01T00:00:00.000Z", temperature := 7004 / 100,
    pressure := 20004 / 1000 }

/-- A schema-valid incident whose last (and only) reading is the injected
one; an `updateIncident` carrying it puts `injectedReading` into the
store, and the next tick generates from it. -/
def injIncident : Incident :=
  { sampleIncident with incidentId := "injected-inc", readings := some [injectedReading] }

/-! ## Helper lemmas on the server store -/

/-- Ticking an incident never changes its id. -/
theorem tickIncident_id (d : Draws) (now : String) (inc : Incident) :
    (tickIncident d now inc).incidentId = inc.incidentId := rfl

/-- A tick never changes the stored ids. -/
theorem tickStoreAux_ids (f : ℕ → Draws) (now : String) :
    ∀ (i : ℕ) (s : List Incident), storeIds (tickStoreAux f now i s) = storeIds s := by
  intro i s
  induction s generalizing i with
  | nil => rfl
  | cons x rest ih =>
    simp only [tickStoreAux, storeIds, List.map]
    rw [tickIncident_id]
    have := ih (i + 1)
    simp only [storeIds] at this
    rw [this]

/-- Replacing the first id-match in place never changes the stored ids. -/
theorem set_found_ids (inc : Incident) :
    ∀ (s : List Incident) (i : ℕ),
      s.findIdx? (fun item => item.incidentId == inc.incidentId) = some i →
      storeIds (s.set i inc) = storeIds s := by
  intro s
  induction s with
  | nil => intro i h; simp [List.findIdx?] at h
  | cons x rest ih =>
    intro i h
    rw [List.findIdx?_cons] at h
    by_cases hx : (x.incidentId == inc.incidentId) = true
    · rw [if_pos hx] at h
      cases h
      have hx' : x.incidentId = inc.incidentId := by simpa using hx
      simp [storeIds, hx']
    · rw [if_neg hx, List.findIdx?_succ] at h
      cases hr : rest.findIdx? (fun item => item.incidentId == inc.incidentId) with
      | none => rw [hr] at h; simp at h
      | some j =>
        rw [hr] at h
        simp only [Option.map_some'] at h
        cases h
        rw [List.set_cons_succ]
        simp only [storeIds, List.map]
        have := ih j hr
        simp only [storeIds] at this
        rw [this]

/-- When `findIndex` misses, the id is genuinely absent from the store. -/
theorem findIdx_none_not_mem (inc : Incident) (s : List Incident)
    (h : s.findIdx? (fun item => item.incidentId == inc.incidentId) = none) :
    inc.incidentId ∉ storeIds s := by
  have hall := List.findIdx?_eq_none_iff.mp h
  intro hmem
  obtain ⟨x, hx, hxid⟩ := List.mem_map.mp hmem
  have := hall x hx
  rw [hxid] at this
  simp at this

/-- One operation preserves id-distinctness provided any accepted add has
a fresh id at that moment. -/
theorem applyOp_preserves_nodup (store : List Incident) (op : Op)
    (h1 : (storeIds store).Nodup)
    (hsafe : (match op with
              | .add inc _ _ => addKeepsDistinct store inc
              | .update _ => true
              | .tick _ _ => true) = true) :
    (storeIds (applyOp store op)).Nodup := by
  cases op with
  | add inc d now =>
    simp only [applyOp]
    cases hv : validIncidentId inc.incidentId with
    | false => simp [addIncident, hv, h1]
    | true =>
      have hfresh : inc.incidentId ∉ storeIds store := by
        have := hsafe
        simp only [addKeepsDistinct, hv, Bool.not_true, Bool.false_or,
          List.all_eq_true] at this
        intro hmem
        obtain ⟨x, hx, hxid⟩ := List.mem_map.mp hmem
        have hb := this x hx
        rw [hxid] at hb
        simp at hb
      by_cases he : (inc.readings.getD []).isEmpty
      · simp only [addIncident, hv, if_true, he, if_pos]
        exact List.nodup_cons.mpr ⟨hfresh, h1⟩
      · simp only [addIncident, hv, if_true, he, if_neg, Bool.false_eq_true,
          not_false_iff]
        exact List.nodup_cons.mpr ⟨hfresh, h1⟩
  | update inc =>
    simp only [applyOp]
    cases hf : store.findIdx? (fun item => item.incidentId == inc.incidentId) with
    | some i =>
      simp only [updateIncidentOnServer, hf]
      rw [set_found_ids inc store i hf]
      exact h1
    | none =>
      simp only [updateIncidentOnServer, hf]
      exact List.nodup_cons.mpr ⟨findIdx_none_not_mem inc store hf, h1⟩
  | tick f now =>
    simp only [applyOp, tickStore]
    rw [tickStoreAux_ids]
    exact h1

/-- C1 (corrected): starting from any store with distinct ids (in
particular the seeded store), every sequence of validated `updateIncident`
messages and ticks preserves id-distinctness, and so does every
`addIncident` whose id is invalid (rejected) or not already present; the
claim's blanket statement fails because an accepted `addIncident` whose id
already exists prepends a duplicate (see the counterexample). -/
theorem c1_distinct_ids (store : List Incident) (ops : List Op)
    (h1 : (storeIds store).Nodup) (h2 : distinctSafeOps store ops = true) :
    (storeIds (applyOps store ops)).Nodup := by
  induction ops generalizing store with
  | nil => exact h1
  | cons op rest ih =>
    rw [distinctSafeOps.eq_def, Bool.and_eq_true] at h2
    have hstep := applyOp_preserves_nodup store op h1 h2.1
    have hrest : applyOps store (op :: rest) = applyOps (applyOp store op) rest := rfl
    rw [hrest]
    exact ih (applyOp store op) hstep h2.2

/-- Witness for C1: a concrete safe sequence from the seeded store keeps
the ids distinct. -/
theorem c1_distinct_ids_witness :
    (storeIds seededStore0).Nodup ∧
    distinctSafeOps seededStore0
      [Op.add sampleIncident zeroDraws "t", Op.update oversizedIncident] = true ∧
    (storeIds (applyOps seededStore0
      [Op.add sampleIncident zeroDraws "t", Op.update oversizedIncident])).Nodup :=
  ⟨by decide, by decide, c1_distinct_ids _ _ (by decide) (by decide)⟩

/-- Counterexample to C1 as stated: the seeded store has distinct ids,
`"test-incident"` passes the id pattern, yet applying the same validated
`addIncident` twice leaves two store entries sharing that id — the server
never checks an incoming add against existing ids. -/
theorem c1_counterexample :
    (storeIds seededStore0).Nodup ∧
    validIncidentId sampleIncident.incidentId = true ∧
    ¬ (storeIds (applyOps seededStore0
        [Op.add sampleIncident zeroDraws "t", Op.add sampleIncident zeroDraws "t"])).Nodup := by
  decide

/-- Length of a right-truncation. -/
theorem takeRight_length (n : ℕ) (l : List Reading) :
    (takeRight n l).length = min n l.length := by
  rw [takeRight, List.length_drop]
  omega

/-- A tick's effect on one incident's readings, unfolded. -/
theorem tickIncident_readings (d : Draws) (now : String) (inc : Incident) :
    (tickIncident d now inc).readings =
      some (takeRight MAX_READINGS ((inc.readings.getD []) ++
        [createReading ((inc.readings.getD []).getLast?) d now])) := rfl

/-- After a tick an incident holds at most `MAX_READINGS` readings,
regardless of how many it held before. -/
theorem tickIncident_bounded (d : Draws) (now : String) (inc : Incident) :
    ((tickIncident d now inc).readings.getD []).length ≤ MAX_READINGS := by
  rw [tickIncident_readings]
  simp only [Option.getD_some]
  rw [takeRight_length]
  omega

/-- A full tick leaves every incident within the history bound. -/
theorem tickStoreAux_bounded (f : ℕ → Draws) (now : String) :
    ∀ (i : ℕ) (s : List Incident), boundedStore (tickStoreAux f now i s) = true := by
  intro i s
  induction s generalizing i with
  | nil => rfl
  | cons x rest ih =>
    simp only [tickStoreAux, boundedStore, List.all_cons, Bool.and_eq_true]
    refine ⟨by simpa using tickIncident_bounded (f i) now x, ?_⟩
    simpa [boundedStore] using ih (i + 1)

/-- One operation with a bounded payload preserves the history bound. -/
theorem applyOp_preserves_bounded (store : List Incident) (op : Op)
    (h1 : boundedStore store = true) (h2 : opPayloadBounded op = true) :
    boundedStore (applyOp store op) = true := by
  cases op with
  | add inc d now =>
    simp only [applyOp]
    cases hv : validIncidentId inc.incidentId with
    | false => simpa [addIncident, hv] using h1
    | true =>
      by_cases he : (inc.readings.getD []).isEmpty
      · simp only [addIncident, hv, if_true, he, if_pos, boundedStore, List.all_cons,
          Bool.and_eq_true]
        constructor
        · simp [MAX_READINGS]
        · simpa [boundedStore] using h1
      · simp only [addIncident, hv, if_true, he, if_neg, Bool.false_eq_true,
          not_false_iff, boundedStore, List.all_cons, Bool.and_eq_true]
        constructor
        · simpa [opPayloadBounded] using h2
        · simpa [boundedStore] using h1
  | update inc =>
    have hinc : ((inc.readings.getD []).length ≤ MAX_READINGS) := by
      simpa [opPayloadBounded] using h2
    have hstore := List.all_eq_true.mp h1
    simp only [applyOp]
    cases hf : store.findIdx? (fun item => item.incidentId == inc.incidentId) with
    | some i =>
      simp only [updateIncidentOnServer, hf, boundedStore, List.all_eq_true]
      intro x hx
      rcases List.mem_or_eq_of_mem_set hx with hmem | rfl
      · exact hstore x hmem
      · simpa using hinc
    | none =>
      simp only [updateIncidentOnServer, hf, boundedStore, List.all_cons,
        Bool.and_eq_true]
      exact ⟨by simpa using hinc, by simpa [boundedStore] using h1⟩
  | tick f now =>
    simpa only [applyOp, tickStore] using tickStoreAux_bounded f now 0 store

/-- C2 (corrected): the history bound `len(readings) ≤ 24` is preserved by
every sequence of ticks and of add/update messages whose payloads carry at
most 24 readings, and each tick retains exactly the most recent readings in
generation order (one reading appended, then truncation from the front, as
the suffix-and-length conjunct states); the claim's blanket "at all times"
fails because an add/update payload may carry more than 24 readings (see
the counterexample). -/
theorem c2_history_bound (store : List Incident) (ops : List Op)
    (h1 : boundedStore store = true) (h2 : boundedOps ops = true) :
    boundedStore (applyOps store ops) = true ∧
    ∀ (d : Draws) (now : String) (inc : Incident),
      ((tickIncident d now inc).readings.getD []).length =
        min MAX_READINGS ((inc.readings.getD []).length + 1) ∧
      ((tickIncident d now inc).readings.getD []) <:+
        ((inc.readings.getD []) ++ [createReading ((inc.readings.getD []).getLast?) d now]) := by
  constructor
  · induction ops generalizing store with
    | nil => exact h1
    | cons op rest ih =>
      rw [boundedOps, List.all_cons, Bool.and_eq_true] at h2
      exact ih (applyOp store op) (applyOp_preserves_bounded store op h1 h2.1) h2.2
  · intro d now inc
    constructor
    · rw [tickIncident_readings]
      simp only [Option.getD_some]
      rw [takeRight_length]
      simp
    · rw [tickIncident_readings]
      simp only [Option.getD_some, takeRight]
      exact List.drop_suffix _ _

/-- Witness for C2: a concrete bounded sequence from the seeded store
keeps every incident within the bound. -/
theorem c2_history_bound_witness :
    boundedStore seededStore0 = true ∧
    boundedOps [Op.add sampleIncident zeroDraws "t",
      Op.tick (fun _ => zeroDraws) "t2", Op.update blankAssigneeIncident] = true ∧
    boundedStore (applyOps seededStore0 [Op.add sampleIncident zeroDraws "t",
      Op.tick (fun _ => zeroDraws) "t2", Op.update blankAssigneeIncident]) = true :=
  ⟨by decide, by decide, (c2_history_bound _ _ (by decide) (by decide)).1⟩

/-- Counterexample to C2 as stated: a single schema-valid `updateIncident`
whose payload carries 25 readings puts an incident with 25 readings into
the store, breaking the `≤ 24` bound until the next tick. -/
theorem c2_counterexample :
    boundedStore seededStore0 = true ∧
    oversizedIncident ∈ applyOps seededStore0 [Op.update oversizedIncident] ∧
    (oversizedIncident.readings.getD []).length = 25 ∧
    boundedStore (applyOps seededStore0 [Op.update oversizedIncident]) = false := by
  decide

/-! ## Interval negotiation, validation rejection, client callbacks -/

/-- C3 (confirmed): with a pending `setReadingInterval` request for `x`, a
`readingIntervalUpdated` broadcast of `y ≠ x` leaves the client's local
`readingIntervalMs` equal to `y` (the server's value, not the requested
one), clears the pending request, and puts the discrepancy warning into
`lastError` — per the appended hook variant in schema.ts, which implements
the discrepancy branch the claim cites. -/
theorem c3_interval_authority (st : ClientState) (x y : ℚ)
    (hp : st.pendingInterval = some x) (hxy : y ≠ x) :
    (applyServerMessage st (.readingIntervalUpdated y)).1.readingIntervalMs = y ∧
    (applyServerMessage st (.readingIntervalUpdated y)).1.pendingInterval = none ∧
    (applyServerMessage st (.readingIntervalUpdated y)).1.lastError =
      some ("Server interval is " ++ toString y ++ "ms, expected " ++ toString x ++ "ms.") := by
  simp [applyServerMessage, hp, hxy]

/-- Witness for C3: pending 1000ms, broadcast 500ms. -/
theorem c3_interval_authority_witness :
    pendingClientState.pendingInterval = some 1000 ∧ (500 : ℚ) ≠ 1000 ∧
    ((applyServerMessage pendingClientState (.readingIntervalUpdated 500)).1.readingIntervalMs = 500 ∧
     (applyServerMessage pendingClientState (.readingIntervalUpdated 500)).1.pendingInterval = none ∧
     (applyServerMessage pendingClientState (.readingIntervalUpdated 500)).1.lastError =
       some ("Server interval is " ++ toString (500 : ℚ) ++ "ms, expected " ++
         toString (1000 : ℚ) ++ "ms.")) :=
  ⟨rfl, by norm_num, c3_interval_authority pendingClientState 1000 500 rfl (by norm_num)⟩

/-- For comparison (not a claim theorem): the standalone hook file's
branch adopts the server value and clears pending too, but always clears
`lastError`, so it alone would not surface the discrepancy warning. -/
theorem baseHook_interval_branch_clears_error (st : ClientState) (y : ℚ) :
    (applyIntervalUpdatedBase st y).readingIntervalMs = y ∧
    (applyIntervalUpdatedBase st y).pendingInterval = none ∧
    (applyIntervalUpdatedBase st y).lastError = none := by
  by_cases h : y = st.readingIntervalMs <;> simp [applyIntervalUpdatedBase, h]

/-- C4 (confirmed): an `addIncident` whose id fails the pattern is
answered with an `INVALID_INCIDENT_ID` error reply; the store is returned
unchanged and nothing is broadcast. -/
theorem c4_invalid_id_rejected (store : List Incident) (inc : Incident)
    (d : Draws) (now : String) (h : validIncidentId inc.incidentId = false) :
    addIncident store inc d now =
      (store, .errorReply "INVALID_INCIDENT_ID"
        "Incident ID must be 3-32 characters: letters, numbers, or hyphens.") := by
  simp [addIncident, h]

/-- Witness for C4: the one-character id `"a"` against the seeded store. -/
theorem c4_invalid_id_rejected_witness :
    validIncidentId invalidIdIncident.incidentId = false ∧
    addIncident seededStore0 invalidIdIncident zeroDraws "t" =
      (seededStore0, .errorReply "INVALID_INCIDENT_ID"
        "Incident ID must be 3-32 characters: letters, numbers, or hyphens.") :=
  ⟨by decide, c4_invalid_id_rejected seededStore0 invalidIdIncident zeroDraws "t" (by decide)⟩

/-- C5 (confirmed): the client reducer's update action is idempotent —
applying the same `incidentUpdated` event twice yields the same list as
applying it once, whether the id was already present (replace in place) or
not (prepend, after which it is present). -/
theorem c5_update_idempotent (state : List Incident) (inc : Incident) :
    incidentsReducer (incidentsReducer state (.update inc)) (.update inc) =
      incidentsReducer state (.update inc) := by
  cases h : state.any (fun item => item.incidentId == inc.incidentId) with
  | true =>
    have hfirst : incidentsReducer state (.update inc) =
        state.map (fun item => if item.incidentId == inc.incidentId then inc else item) := by
      simp [incidentsReducer, h]
    rw [hfirst]
    have hany : (state.map (fun item => if item.incidentId == inc.incidentId then inc else item)).any
        (fun item => item.incidentId == inc.incidentId) = true := by
      obtain ⟨x, hx, hpx⟩ := List.any_eq_true.mp h
      refine List.any_eq_true.mpr ⟨inc, ?_, by simp⟩
      exact List.mem_map.mpr ⟨x, hx, by simp [hpx]⟩
    simp only [incidentsReducer, hany, if_true, List.map_map]
    apply List.map_congr_left
    intro a _
    by_cases ha : a.incidentId == inc.incidentId
    · simp [Function.comp, ha]
    · simp [Function.comp, ha]
  | false =>
    have hfirst : incidentsReducer state (.update inc) = inc :: state := by
      simp [incidentsReducer, h]
    rw [hfirst]
    have hany : (inc :: state).any (fun item => item.incidentId == inc.incidentId) = true := by
      simp [List.any_cons]
    simp only [incidentsReducer, hany, if_true, List.map]
    have hall := List.any_eq_false.mp h
    have htail : List.map (fun item =>
        if (item.incidentId == inc.incidentId) = true then inc else item) state = state := by
      have := List.map_congr_left (l := state)
        (f := fun item => if (item.incidentId == inc.incidentId) = true then inc else item)
        (g := id) (fun a ha => by simp [hall a ha])
      simpa using this
    rw [ite_self, htail]

/-! ## Helper lemmas for the reading generator -/

/-- Temperature of a drift step, unfolded. -/
theorem createReading_temperature_some (p : Reading) (d : Draws) (now : String) :
    (createReading (some p) d now).temperature =
      roundToDec 1 (p.temperature + (d.dt * 4 - 2)) := rfl

/-- Pressure of a drift step, unfolded. -/
theorem createReading_pressure_some (p : Reading) (d : Draws) (now : String) :
    (createReading (some p) d now).pressure =
      roundToDec 2 (p.pressure + (d.dp * 2 - 1)) := rfl

/-- Rounding to one decimal lands on an exact multiple of 0.1. -/
theorem roundToDec_one_form (x : ℚ) : ∃ k : ℤ, roundToDec 1 x = (k : ℚ) / 10 :=
  ⟨round (x * 10 ^ 1), by rw [roundToDec]; norm_num⟩

/-- Rounding to two decimals lands on an exact multiple of 0.01. -/
theorem roundToDec_two_form (x : ℚ) : ∃ m : ℤ, roundToDec 2 x = (m : ℚ) / 100 :=
  ⟨round (x * 10 ^ 2), by rw [roundToDec]; norm_num⟩

/-- Every generated reading has a one-decimal temperature and a
two-decimal pressure (both branches of `createReading` round). -/
theorem generated_decimal (r : Reading) (h : GeneratedReading r) :
    (∃ k : ℤ, r.temperature = (k : ℚ) / 10) ∧ (∃ m : ℤ, r.pressure = (m : ℚ) / 100) := by
  obtain ⟨prev, d, now, -, rfl⟩ := h
  cases prev with
  | none =>
    exact ⟨by simpa [createReading] using roundToDec_one_form (68 + d.bt * 12 + (d.dt * 4 - 2)),
           by simpa [createReading] using roundToDec_two_form (18 + d.bp * 6 + (d.dp * 2 - 1))⟩
  | some p =>
    exact ⟨by simpa [createReading_temperature_some] using
             roundToDec_one_form (p.temperature + (d.dt * 4 - 2)),
           by simpa [createReading_pressure_some] using
             roundToDec_two_form (p.pressure + (d.dp * 2 - 1))⟩

/-- Rounding a drift of `[-2, 2)` from a one-decimal base moves the value
by at most 2. -/
theorem temp_drift_bound (k : ℤ) (δ : ℚ) (h1 : -2 ≤ δ) (h2 : δ < 2) :
    |roundToDec 1 ((k : ℚ) / 10 + δ) - (k : ℚ) / 10| ≤ 2 := by
  have harg : ((k : ℚ) / 10 + δ) * 10 ^ 1 = 10 * δ + (k : ℚ) := by ring
  rw [roundToDec, harg, round_add_int]
  have hup : round (10 * δ) ≤ 20 := by
    rw [round_eq]
    have h21 : ⌊(10 * δ + 1 / 2 : ℚ)⌋ < (21 : ℤ) := Int.floor_lt.mpr (by push_cast; linarith)
    omega
  have hlo : (-20 : ℤ) ≤ round (10 * δ) := by
    rw [round_eq]
    exact Int.le_floor.mpr (by linarith)
  have hq1 : ((round (10 * δ) : ℤ) : ℚ) ≤ 20 := by exact_mod_cast hup
  have hq2 : (-20 : ℚ) ≤ ((round (10 * δ) : ℤ) : ℚ) := by exact_mod_cast hlo
  have hsimp : ((round (10 * δ) + k : ℤ) : ℚ) / 10 ^ 1 - (k : ℚ) / 10 =
      ((round (10 * δ) : ℤ) : ℚ) / 10 := by push_cast; ring
  rw [hsimp, abs_le]
  constructor <;> linarith

/-- Rounding a drift of `[-1, 1)` from a two-decimal base moves the value
by at most 1. -/
theorem pressure_drift_bound (m : ℤ) (ε : ℚ) (h1 : -1 ≤ ε) (h2 : ε < 1) :
    |roundToDec 2 ((m : ℚ) / 100 + ε) - (m : ℚ) / 100| ≤ 1 := by
  have harg : ((m : ℚ) / 100 + ε) * 10 ^ 2 = 100 * ε + (m : ℚ) := by ring
  rw [roundToDec, harg, round_add_int]
  have hup : round (100 * ε) ≤ 100 := by
    rw [round_eq]
    have h101 : ⌊(100 * ε + 1 / 2 : ℚ)⌋ < (101 : ℤ) := Int.floor_lt.mpr (by push_cast; linarith)
    omega
  have hlo : (-100 : ℤ) ≤ round (100 * ε) := by
    rw [round_eq]
    exact Int.le_floor.mpr (by linarith)
  have hq1 : ((round (100 * ε) : ℤ) : ℚ) ≤ 100 := by exact_mod_cast hup
  have hq2 : (-100 : ℚ) ≤ ((round (100 * ε) : ℤ) : ℚ) := by exact_mod_cast hlo
  have hsimp : ((round (100 * ε) + m : ℤ) : ℚ) / 10 ^ 2 - (m : ℚ) / 100 =
      ((round (100 * ε) : ℤ) : ℚ) / 100 := by push_cast; ring
  rw [hsimp, abs_le]
  constructor <;> linarith

/-- C6 (corrected): for a previous reading that was itself produced by the
generator and any uniform draws in `[0,1)`, the next reading drifts by at
most 2 in temperature and at most 1 in pressure. The generated-previous
hypothesis is necessary, not merely convenient: every generated
temperature (pressure) is an exact multiple of 0.1 (0.01), which keeps the
decimal rounding from pushing the drift past the bound, whereas for an
arbitrary schema-valid previous reading the claim's unconditional bound
fails (see the counterexample). -/
theorem c6_bounded_drift (prev : Reading) (hprev : GeneratedReading prev)
    (d : Draws) (hd : DrawsInRange d) (now : String) :
    |(createReading (some prev) d now).temperature - prev.temperature| ≤ 2 ∧
    |(createReading (some prev) d now).pressure - prev.pressure| ≤ 1 := by
  obtain ⟨⟨k, hk⟩, ⟨m, hm⟩⟩ := generated_decimal prev hprev
  obtain ⟨-, -, -, -, hdt0, hdt1, hdp0, hdp1⟩ := hd
  constructor
  · rw [createReading_temperature_some, hk]
    exact temp_drift_bound k (d.dt * 4 - 2) (by linarith) (by linarith)
  · rw [createReading_pressure_some, hm]
    exact pressure_drift_bound m (d.dp * 2 - 1) (by linarith) (by linarith)

/-- Witness for C6: a seeded first reading followed by one drift step,
with all draws 0. -/
theorem c6_bounded_drift_witness :
    GeneratedReading (createReading none zeroDraws "t0") ∧
    DrawsInRange zeroDraws ∧
    (|(createReading (some (createReading none zeroDraws "t0")) zeroDraws "t1").temperature -
        (createReading none zeroDraws "t0").temperature| ≤ 2 ∧
     |(createReading (some (createReading none zeroDraws "t0")) zeroDraws "t1").pressure -
        (createReading none zeroDraws "t0").pressure| ≤ 1) :=
  ⟨⟨none, zeroDraws, "t0", by norm_num [DrawsInRange, zeroDraws], rfl⟩,
   by norm_num [DrawsInRange, zeroDraws],
   c6_bounded_drift (createReading none zeroDraws "t0")
     ⟨none, zeroDraws, "t0", by norm_num [DrawsInRange, zeroDraws], rfl⟩
     zeroDraws (by norm_num [DrawsInRange, zeroDraws]) "t1"⟩

/-- Counterexample to C6 as stated: the previous reading only has to be
defined, and `IncidentReadingSchema` accepts any numbers, so a schema-valid
`updateIncident` payload can make `injectedReading` (temperature 70.04,
pressure 20.004) the last stored reading — as `injIncident` shows — and the
next tick generates from it. With all draws 0 the generated reading is
temperature 68.0 and pressure 19.00: a drift of 2.04 > 2 and 1.004 > 1,
because rounding to 1 (2) decimals from a base that is not a 0.1 (0.01)
multiple can move the value past the bound. -/
theorem c6_counterexample :
    DrawsInRange zeroDraws ∧
    (injIncident.readings.getD []).getLast? = some injectedReading ∧
    ¬ (|(createReading (some injectedReading) zeroDraws "t1").temperature -
          injectedReading.temperature| ≤ 2) ∧
    ¬ (|(createReading (some injectedReading) zeroDraws "t1").pressure -
          injectedReading.pressure| ≤ 1) := by
  refine ⟨by norm_num [DrawsInRange, zeroDraws], rfl, ?_, ?_⟩
  · rw [createReading_temperature_some]
    have h1 : roundToDec 1 (injectedReading.temperature + (zeroDraws.dt * 4 - 2)) = 68 := by
      rw [roundToDec]
      norm_num [injectedReading, zeroDraws, round_eq]
    rw [h1]
    norm_num [injectedReading, abs_le]
  · rw [createReading_pressure_some]
    have h2 : roundToDec 2 (injectedReading.pressure + (zeroDraws.dp * 2 - 1)) = 19 := by
      rw [roundToDec]
      norm_num [injectedReading, zeroDraws, round_eq]
    rw [h2]
    norm_num [injectedReading, abs_le]

/-! ## Bucketing, payload rejection, client callbacks -/

/-- C7 (corrected): under fixed filters, an incident passing the filters
lands in exactly one bucket — `new` when OPEN with an absent or
empty-string `assignedTo`, `active` when OPEN with a nonempty
`assignedTo`, `completed` when CLOSED regardless of `assignedTo`. The
claim's reading that any present `assignedTo` means `active` fails for the
empty string, which JS truthiness treats as no assignee (see the
counterexample). -/
theorem c7_bucketing (incidents : List Incident) (esc : Option String)
    (types : Option (List String)) (inc : Incident)
    (hmem : inc ∈ incidents) (hf : matchesFilter esc types inc = true) :
    (inc.stateId = "OPEN" → (inc.assignedTo = none ∨ inc.assignedTo = some "") →
       inc ∈ getIncidentsByType incidents .newBucket esc types ∧
       inc ∉ getIncidentsByType incidents .active esc types ∧
       inc ∉ getIncidentsByType incidents .completed esc types) ∧
    (inc.stateId = "OPEN" → (∃ s, inc.assignedTo = some s ∧ s ≠ "") →
       inc ∉ getIncidentsByType incidents .newBucket esc types ∧
       inc ∈ getIncidentsByType incidents .active esc types ∧
       inc ∉ getIncidentsByType incidents .completed esc types) ∧
    (inc.stateId = "CLOSED" →
       inc ∉ getIncidentsByType incidents .newBucket esc types ∧
       inc ∉ getIncidentsByType incidents .active esc types ∧
       inc ∈ getIncidentsByType incidents .completed esc types) := by
  refine ⟨?_, ?_, ?_⟩
  · intro h1 h2
    have ht : assignedTruthy inc = false := by
      rcases h2 with h | h <;> simp [assignedTruthy, h]
    refine ⟨?_, ?_, ?_⟩
    · simp [getIncidentsByType, List.mem_filter, hmem, hf, h1, ht]
    · simp [getIncidentsByType, List.mem_filter, hf, h1, ht]
    · simp [getIncidentsByType, List.mem_filter, hf, h1]
  · intro h1 h2
    have ht : assignedTruthy inc = true := by
      obtain ⟨s, hs, hne⟩ := h2
      simp [assignedTruthy, hs, hne]
    refine ⟨?_, ?_, ?_⟩
    · simp [getIncidentsByType, List.mem_filter, hf, h1, ht]
    · simp [getIncidentsByType, List.mem_filter, hmem, hf, h1, ht]
    · simp [getIncidentsByType, List.mem_filter, hf, h1]
  · intro h1
    refine ⟨?_, ?_, ?_⟩
    · simp [getIncidentsByType, List.mem_filter, hf, h1]
    · simp [getIncidentsByType, List.mem_filter, hf, h1]
    · simp [getIncidentsByType, List.mem_filter, hmem, hf, h1]

/-- Witness for C7: an OPEN, unassigned incident under inactive filters
appears in `new` and in no other bucket. -/
theorem c7_bucketing_witness :
    sampleIncident ∈ [sampleIncident] ∧
    matchesFilter none none sampleIncident = true ∧
    (sampleIncident ∈ getIncidentsByType [sampleIncident] .newBucket none none ∧
     sampleIncident ∉ getIncidentsByType [sampleIncident] .active none none ∧
     sampleIncident ∉ getIncidentsByType [sampleIncident] .completed none none) :=
  ⟨by decide, by decide,
    (c7_bucketing [sampleIncident] none none sampleIncident (by decide) (by decide)).1
      rfl (Or.inl rfl)⟩

/-- Counterexample to C7 as stated: an OPEN incident whose `assignedTo` is
present but empty lands in the `new` bucket and not in `active`, because
the code tests JS truthiness of `assignedTo`, not presence. -/
theorem c7_counterexample :
    blankAssigneeIncident.stateId = "OPEN" ∧
    blankAssigneeIncident.assignedTo = some "" ∧
    matchesFilter none none blankAssigneeIncident = true ∧
    blankAssigneeIncident ∈ getIncidentsByType [blankAssigneeIncident] .newBucket none none ∧
    blankAssigneeIncident ∉ getIncidentsByType [blankAssigneeIncident] .active none none := by
  decide

/-- C8 (corrected): an unparsable payload is discarded silently with the
state untouched, and a JSON payload failing the server-message contract
(including an unrecognized `type`) leaves incidents, catalog, and
`readingIntervalMs` untouched — but, contrary to the claim's "discard
silently", it sets `lastError` to the unexpected-shape message and raises
an `onError` notification (see the counterexample). -/
theorem c8_invalid_payload (st : ClientState) (j : Json)
    (h : decodeServerMessage j = none) :
    handleMessage st none = (st, []) ∧
    handleMessage st (some j) =
      ({ st with lastError := some "Received an unexpected message shape from the server." },
        ["Received an unexpected message shape from the server."]) := by
  constructor
  · rfl
  · simp [handleMessage, h]

/-- Witness for C8: the unrecognized-type object fails the schema and is
handled as the theorem states. -/
theorem c8_invalid_payload_witness :
    decodeServerMessage bogusJson = none ∧
    (handleMessage clientState0 none = (clientState0, []) ∧
     handleMessage clientState0 (some bogusJson) =
       ({ clientState0 with
            lastError := some "Received an unexpected message shape from the server." },
         ["Received an unexpected message shape from the server."])) :=
  ⟨by decide, c8_invalid_payload clientState0 bogusJson (by decide)⟩

/-- Counterexample to C8 as stated: a schema-invalid JSON object with an
unrecognized `type` is not discarded silently — `lastError` changes from
`none` to the unexpected-shape message and a notification is raised. -/
theorem c8_counterexample :
    clientState0.lastError = none ∧
    (handleMessage clientState0 (some bogusJson)).1.lastError =
      some "Received an unexpected message shape from the server." ∧
    (handleMessage clientState0 (some bogusJson)).2 ≠ [] := by
  refine ⟨rfl, rfl, ?_⟩
  decide

/-- C9 (confirmed): when the socket is absent or not OPEN, the client's
`sendIncident` callback sends nothing and leaves the client state exactly
as it was — the add request is silently dropped, with no queue and no
error surfaced. -/
theorem c9_send_dropped (st : ClientState) (socket : Option ReadyState)
    (inc : Incident) (h : socket ≠ some ReadyState.openState) :
    sendIncident st socket inc = (st, []) := by
  cases socket with
  | none => rfl
  | some rs =>
    have hrs : rs ≠ ReadyState.openState := by
      intro he; exact h (by rw [he])
    simp [sendIncident, hrs]

/-- Witness for C9: a CLOSED socket drops the send. -/
theorem c9_send_dropped_witness :
    (some ReadyState.closed : Option ReadyState) ≠ some ReadyState.openState ∧
    sendIncident clientState0 (some ReadyState.closed) sampleIncident = (clientState0, []) :=
  ⟨by decide, c9_send_dropped clientState0 (some ReadyState.closed) sampleIncident (by decide)⟩

/-- C10 (confirmed): the client's `updateIncident` callback always applies
the reducer's update action (replace-by-id if present, else prepend) to
the local list, independent of the socket; when the socket is not OPEN no
message is sent, yet the local list still reflects the update. -/
theorem c10_local_update (st : ClientState) (socket : Option ReadyState) (inc : Incident) :
    (clientUpdateIncident st socket inc).1.incidents =
      incidentsReducer st.incidents (.update inc) ∧
    (socket ≠ some ReadyState.openState → (clientUpdateIncident st socket inc).2 = []) := by
  constructor
  · cases socket with
    | none => rfl
    | some rs =>
      by_cases hrs : rs = ReadyState.openState <;> simp [clientUpdateIncident, hrs]
  · intro h
    cases socket with
    | none => rfl
    | some rs =>
      have hrs : rs ≠ ReadyState.openState := by
        intro he; exact h (by rw [he])
      simp [clientUpdateIncident, hrs]

/-- Witness for C10: with a CLOSED socket the update is applied locally
and nothing is sent. -/
theorem c10_local_update_witness :
    (clientUpdateIncident clientState0 (some ReadyState.closed) sampleIncident).1.incidents =
      incidentsReducer clientState0.incidents (.update sampleIncident) ∧
    (clientUpdateIncident clientState0 (some ReadyState.closed) sampleIncident).2 = [] :=
  ⟨(c10_local_update clientState0 (some ReadyState.closed) sampleIncident).1,
   (c10_local_update clientState0 (some ReadyState.closed) sampleIncident).2 (by decide)⟩

end IncidentsManager
